import Mathlib

/-!
Verification of the `byte-order` crate: byte-order-aware encoding and decoding
of fixed-width numbers over in-memory byte sources and sinks.

The embedding follows `src/order.rs`, `src/read.rs` and `src/write.rs`.
Machine bytes are modelled as natural numbers below 256, byte streams as
lists, unsigned machine integers as natural numbers below `2^w`, and signed
machine integers as integers in the two's-complement range.
-/

/-- Embeds the Rust enum `ByteOrder` (src/order.rs, lines 27-30): the two
byte orders, big-endian and little-endian. -/
inductive ByteOrder where
  | BE
  | LE
deriving DecidableEq

/-- Embeds the constant `ByteOrder::NE` (src/order.rs, lines 49-53). In the
source it is resolved at build time from `cfg!(target_endian = "big")`;
here the build target's endianness flag is an explicit parameter. -/
def ByteOrder.NE (targetEndianBig : Bool) : ByteOrder :=
  if targetEndianBig then ByteOrder.BE else ByteOrder.LE

/-- Embeds Rust's `uN::to_le_bytes` for `N = 8 * k` applied to the value `n`:
the `k` bytes of `n`, least significant first. -/
def toLeBytes : Nat → Nat → List Nat
  | 0, _ => []
  | k + 1, n => n % 256 :: toLeBytes k (n / 256)

/-- Embeds Rust's `uN::to_be_bytes` for `N = 8 * k` applied to the value `n`:
the `k` bytes of `n`, most significant first. -/
def toBeBytes : Nat → Nat → List Nat
  | 0, _ => []
  | k + 1, n => toBeBytes k (n / 256) ++ [n % 256]

/-- Embeds Rust's `uN::from_le_bytes`: recombines bytes given least
significant first. -/
def fromLeBytes : List Nat → Nat
  | [] => 0
  | b :: bs => b + 256 * fromLeBytes bs

/-- Embeds Rust's `uN::from_be_bytes`: Horner recombination of bytes given
most significant first. -/
def fromBeBytes (bs : List Nat) : Nat :=
  bs.foldl (fun acc b => 256 * acc + b) 0

/-- Embeds Rust's primitive cast `as iN` on an `N = 8 * k`-bit unsigned value:
bit patterns below `2^(N-1)` denote themselves, the rest wrap by `-2^N`
(two's-complement reinterpretation, no other change to the bits). -/
def toSigned (k : Nat) (n : Nat) : Int :=
  if 2 * n < 256 ^ k then (n : Int) else (n : Int) - 256 ^ k

/-- Embeds Rust's primitive cast `as uN` on an `N = 8 * k`-bit signed value:
the unsigned reading of its two's-complement bit pattern, i.e. the
representative of `i` modulo `2^N`. -/
def toUnsigned (k : Nat) (i : Int) : Nat :=
  (i % (256 ^ k : Int)).toNat

/-- The distinguished error an in-memory byte source raises: end of input
reached before the requested byte count (`std::io::ErrorKind::UnexpectedEof`,
the error `Read::read_exact` reports on a short read). -/
inductive IoError where
  | unexpectedEof
deriving DecidableEq

/-- Embeds `Read::read_exact` over an in-memory byte source (a `Cursor` over
a byte vector, modelled as the list of bytes not yet consumed): on success
the `n` bytes read and the remaining source; when fewer than `n` bytes
remain, the unexpected-end-of-input error and no bytes at all. -/
def readExact (n : Nat) (src : List Nat) : Except IoError (List Nat × List Nat) :=
  if n ≤ src.length then Except.ok (src.take n, src.drop n)
  else Except.error IoError.unexpectedEof

/-- Embeds the struct `NumberReader` (src/read.rs, lines 69-72) specialised
to an in-memory byte source: the wrapped source plus the byte order fixed at
construction. -/
structure NumberReader where
  inner : List Nat
  order : ByteOrder
deriving DecidableEq

/-- Embeds `NumberReader::with_order` (src/read.rs, lines 156-158). -/
def NumberReader.with_order (order : ByteOrder) (src : List Nat) : NumberReader :=
  { inner := src, order := order }

/-- Embeds `NumberReader::new` (src/read.rs, lines 111-113); the build
target's endianness flag is passed explicitly. -/
def NumberReader.new (targetEndianBig : Bool) (src : List Nat) : NumberReader :=
  NumberReader.with_order (ByteOrder.NE targetEndianBig) src

/-- Embeds `NumberReader::read_u8` (src/read.rs, lines 233-237): reads one
byte, no byte-order transformation. -/
def NumberReader.read_u8 (r : NumberReader) : Except IoError (Nat × NumberReader) :=
  match readExact 1 r.inner with
  | Except.error e => Except.error e
  | Except.ok (buf, rest) => Except.ok (buf.headD 0, { r with inner := rest })

/-- Embeds `NumberReader::read_i8` (src/read.rs, lines 264-266):
`Ok(self.read_u8()? as i8)`. -/
def NumberReader.read_i8 (r : NumberReader) : Except IoError (Int × NumberReader) :=
  match r.read_u8 with
  | Except.error e => Except.error e
  | Except.ok (n, r') => Except.ok (toSigned 1 n, r')

/-- Embeds `NumberReader::read_u16` (src/read.rs, lines 296-304): reads two
bytes, recombined little-endian when the reader's order is `LE`, big-endian
otherwise. -/
def NumberReader.read_u16 (r : NumberReader) : Except IoError (Nat × NumberReader) :=
  match readExact 2 r.inner with
  | Except.error e => Except.error e
  | Except.ok (buf, rest) =>
      Except.ok
        ((if r.order = ByteOrder.LE then fromLeBytes buf else fromBeBytes buf),
          { r with inner := rest })

/-- Embeds `NumberReader::read_i16` (src/read.rs, lines 334-336):
`Ok(self.read_u16()? as i16)`. -/
def NumberReader.read_i16 (r : NumberReader) : Except IoError (Int × NumberReader) :=
  match r.read_u16 with
  | Except.error e => Except.error e
  | Except.ok (n, r') => Except.ok (toSigned 2 n, r')

/-- Embeds `NumberReader::read_u32` (src/read.rs, lines 366-374). -/
def NumberReader.read_u32 (r : NumberReader) : Except IoError (Nat × NumberReader) :=
  match readExact 4 r.inner with
  | Except.error e => Except.error e
  | Except.ok (buf, rest) =>
      Except.ok
        ((if r.order = ByteOrder.LE then fromLeBytes buf else fromBeBytes buf),
          { r with inner := rest })

/-- Embeds `NumberReader::read_i32` (src/read.rs, lines 404-406):
`Ok(self.read_u32()? as i32)`. -/
def NumberReader.read_i32 (r : NumberReader) : Except IoError (Int × NumberReader) :=
  match r.read_u32 with
  | Except.error e => Except.error e
  | Except.ok (n, r') => Except.ok (toSigned 4 n, r')

/-- Embeds `NumberReader::read_u64` (src/read.rs, lines 436-444). -/
def NumberReader.read_u64 (r : NumberReader) : Except IoError (Nat × NumberReader) :=
  match readExact 8 r.inner with
  | Except.error e => Except.error e
  | Except.ok (buf, rest) =>
      Except.ok
        ((if r.order = ByteOrder.LE then fromLeBytes buf else fromBeBytes buf),
          { r with inner := rest })

/-- Embeds `NumberReader::read_i64` (src/read.rs, lines 474-476):
`Ok(self.read_u64()? as i64)`. -/
def NumberReader.read_i64 (r : NumberReader) : Except IoError (Int × NumberReader) :=
  match r.read_u64 with
  | Except.error e => Except.error e
  | Except.ok (n, r') => Except.ok (toSigned 8 n, r')

/-- Embeds `NumberReader::read_u128` (src/read.rs, lines 509-517). -/
def NumberReader.read_u128 (r : NumberReader) : Except IoError (Nat × NumberReader) :=
  match readExact 16 r.inner with
  | Except.error e => Except.error e
  | Except.ok (buf, rest) =>
      Except.ok
        ((if r.order = ByteOrder.LE then fromLeBytes buf else fromBeBytes buf),
          { r with inner := rest })

/-- Embeds `NumberReader::read_i128` (src/read.rs, lines 550-552):
`Ok(self.read_u128()? as i128)`. -/
def NumberReader.read_i128 (r : NumberReader) : Except IoError (Int × NumberReader) :=
  match r.read_u128 with
  | Except.error e => Except.error e
  | Except.ok (n, r') => Except.ok (toSigned 16 n, r')

/-- Embeds `NumberReader::read_f32` (src/read.rs, lines 583-591). The float
is represented by its raw IEEE-754 binary32 bit pattern, as
`f32::from_xx_bytes` is the bit-pattern recombination fed to
`f32::from_bits`; no canonicalization or validation is applied. -/
def NumberReader.read_f32 (r : NumberReader) : Except IoError (Nat × NumberReader) :=
  match readExact 4 r.inner with
  | Except.error e => Except.error e
  | Except.ok (buf, rest) =>
      Except.ok
        ((if r.order = ByteOrder.LE then fromLeBytes buf else fromBeBytes buf),
          { r with inner := rest })

/-- Embeds `NumberReader::read_f64` (src/read.rs, lines 622-630), the float
represented by its raw IEEE-754 binary64 bit pattern. -/
def NumberReader.read_f64 (r : NumberReader) : Except IoError (Nat × NumberReader) :=
  match readExact 8 r.inner with
  | Except.error e => Except.error e
  | Except.ok (buf, rest) =>
      Except.ok
        ((if r.order = ByteOrder.LE then fromLeBytes buf else fromBeBytes buf),
          { r with inner := rest })

/-- Embeds `Write::write_all` on a `Vec<u8>` sink: appends the whole byte
run; on an in-memory vector it never fails. -/
def writeAll (sink : List Nat) (bytes : List Nat) : List Nat :=
  sink ++ bytes

/-- Embeds the struct `NumberWriter` (src/write.rs, lines 66-69) specialised
to an in-memory `Vec<u8>` sink: the wrapped sink plus the byte order fixed
at construction. -/
structure NumberWriter where
  inner : List Nat
  order : ByteOrder
deriving DecidableEq

/-- Embeds `NumberWriter::with_order` (src/write.rs, lines 78-80). -/
def NumberWriter.with_order (order : ByteOrder) (w : List Nat) : NumberWriter :=
  { inner := w, order := order }

/-- Embeds `NumberWriter::new` (src/write.rs, lines 73-75); the build
target's endianness flag is passed explicitly. -/
def NumberWriter.new (targetEndianBig : Bool) (w : List Nat) : NumberWriter :=
  NumberWriter.with_order (ByteOrder.NE targetEndianBig) w

/-- Embeds `NumberWriter::write_u8` (src/write.rs, lines 156-158):
`write_all(&[n])`, no byte-order transformation. -/
def NumberWriter.write_u8 (w : NumberWriter) (n : Nat) : NumberWriter :=
  { w with inner := writeAll w.inner [n] }

/-- Embeds `NumberWriter::write_i8` (src/write.rs, lines 186-188):
`self.write_u8(n as u8)`. -/
def NumberWriter.write_i8 (w : NumberWriter) (i : Int) : NumberWriter :=
  w.write_u8 (toUnsigned 1 i)

/-- Embeds `NumberWriter::write_u16` (src/write.rs, lines 220-226): the
value's bytes in the writer's fixed order, written with `write_all`. -/
def NumberWriter.write_u16 (w : NumberWriter) (n : Nat) : NumberWriter :=
  let bytes := match w.order with
    | ByteOrder.BE => toBeBytes 2 n
    | ByteOrder.LE => toLeBytes 2 n
  { w with inner := writeAll w.inner bytes }

/-- Embeds `NumberWriter::write_i16` (src/write.rs, lines 258-260):
`self.write_u16(n as u16)`. -/
def NumberWriter.write_i16 (w : NumberWriter) (i : Int) : NumberWriter :=
  w.write_u16 (toUnsigned 2 i)

/-- Embeds `NumberWriter::write_u32` (src/write.rs, lines 292-298). -/
def NumberWriter.write_u32 (w : NumberWriter) (n : Nat) : NumberWriter :=
  let bytes := match w.order with
    | ByteOrder.BE => toBeBytes 4 n
    | ByteOrder.LE => toLeBytes 4 n
  { w with inner := writeAll w.inner bytes }

/-- Embeds `NumberWriter::write_i32` (src/write.rs, lines 330-332):
`self.write_u32(n as u32)`. -/
def NumberWriter.write_i32 (w : NumberWriter) (i : Int) : NumberWriter :=
  w.write_u32 (toUnsigned 4 i)

/-- Embeds `NumberWriter::write_u64` (src/write.rs, lines 364-370). -/
def NumberWriter.write_u64 (w : NumberWriter) (n : Nat) : NumberWriter :=
  let bytes := match w.order with
    | ByteOrder.BE => toBeBytes 8 n
    | ByteOrder.LE => toLeBytes 8 n
  { w with inner := writeAll w.inner bytes }

/-- Embeds `NumberWriter::write_i64` (src/write.rs, lines 402-404):
`self.write_u64(n as u64)`. -/
def NumberWriter.write_i64 (w : NumberWriter) (i : Int) : NumberWriter :=
  w.write_u64 (toUnsigned 8 i)

/-- Embeds `NumberWriter::write_u128` (src/write.rs, lines 448-454). -/
def NumberWriter.write_u128 (w : NumberWriter) (n : Nat) : NumberWriter :=
  let bytes := match w.order with
    | ByteOrder.BE => toBeBytes 16 n
    | ByteOrder.LE => toLeBytes 16 n
  { w with inner := writeAll w.inner bytes }

/-- Embeds `NumberWriter::write_i128` (src/write.rs, lines 498-500):
`self.write_u128(n as u128)`. -/
def NumberWriter.write_i128 (w : NumberWriter) (i : Int) : NumberWriter :=
  w.write_u128 (toUnsigned 16 i)

/-- Embeds `NumberWriter::write_f32` (src/write.rs, lines 533-539), the
float represented by its raw IEEE-754 binary32 bit pattern (as
`f32::to_xx_bytes` is `to_bits` followed by the integer byte split). -/
def NumberWriter.write_f32 (w : NumberWriter) (bits : Nat) : NumberWriter :=
  let bytes := match w.order with
    | ByteOrder.BE => toBeBytes 4 bits
    | ByteOrder.LE => toLeBytes 4 bits
  { w with inner := writeAll w.inner bytes }

/-- Embeds `NumberWriter::write_f64` (src/write.rs, lines 572-578), the
float represented by its raw IEEE-754 binary64 bit pattern. -/
def NumberWriter.write_f64 (w : NumberWriter) (bits : Nat) : NumberWriter :=
  let bytes := match w.order with
    | ByteOrder.BE => toBeBytes 8 bits
    | ByteOrder.LE => toLeBytes 8 bits
  { w with inner := writeAll w.inner bytes }

/-- The `NumberReader` struct over an abstract source type, as in the generic
Rust struct `NumberReader<R: Read>` (src/read.rs, lines 69-72). -/
structure GenNumberReader (σ : Type) where
  inner : σ
  order : ByteOrder

/-- Embeds `impl<R: Read> Read for NumberReader<R>` (src/read.rs, lines
633-637): the wrapper's raw `read` is `self.inner.read(buf)`. The wrapped
source's own `read` behaviour is the function `readFn`: given a source state
and the caller's buffer length, it yields the bytes placed into the buffer
(the filled prefix, whose length is the returned count) and the new source
state, or the source's error. -/
def GenNumberReader.read {σ ε : Type} (readFn : σ → Nat → Except ε (List Nat × σ))
    (r : GenNumberReader σ) (bufLen : Nat) :
    Except ε (List Nat × GenNumberReader σ) :=
  match readFn r.inner bufLen with
  | Except.error e => Except.error e
  | Except.ok (bs, s) => Except.ok (bs, { r with inner := s })

/-- The public inherent methods of `NumberWriter`, i.e. the functions declared
in `impl<W: Write> NumberWriter<W>` (src/write.rs, lines 71-579), in source
order. -/
def numberWriterMethods : List String :=
  ["new", "with_order", "into_inner", "get_ref", "get_mut",
    "write_u8", "write_i8", "write_u16", "write_i16", "write_u32", "write_i32",
    "write_u64", "write_i64", "write_u128", "write_i128", "write_f32",
    "write_f64"]

/-- The traits implemented for `NumberWriter` in src/write.rs: none — the
file contains the single inherent `impl` block and no trait `impl` for the
type (in particular no `impl Write`, which would supply `write` and
`flush`). -/
def numberWriterTraitImpls : List String := []

/-- The traits implemented for `NumberReader` in src/read.rs: `Read`
(lines 633-637), the raw byte-read pass-through. -/
def numberReaderTraitImpls : List String := ["Read"]

/-- The value denoted by an IEEE-754 binary32 bit pattern (what
`f32::from_bits` produces), as a rational for finite values and `none` for
infinities and NaNs: sign bit 31, exponent bits 23-30, fraction bits 0-22;
exponent 255 is non-finite, exponent 0 subnormal with value
`±frac * 2^(-149)`, and otherwise `±(2^23 + frac) * 2^(exp - 150)`. -/
def f32ValOfBits (bits : Nat) : Option ℚ :=
  let s : Nat := bits / 2 ^ 31 % 2
  let e : Nat := bits / 2 ^ 23 % 2 ^ 8
  let f : Nat := bits % 2 ^ 23
  if e = 2 ^ 8 - 1 then none
  else
    let mag : ℚ := (if e = 0 then 2 * (f : ℚ) else ((2 ^ 23 + f : Nat) : ℚ) * 2 ^ e) / 2 ^ 150
    some (if s = 1 then -mag else mag)

/-! Helper lemmas about the byte-level codec functions. -/

theorem toLeBytes_length (k n : Nat) : (toLeBytes k n).length = k := by
  induction k generalizing n with
  | zero => rfl
  | succ k ih => simp [toLeBytes, ih]

theorem toBeBytes_eq_reverse (k n : Nat) :
    toBeBytes k n = (toLeBytes k n).reverse := by
  induction k generalizing n with
  | zero => rfl
  | succ k ih => simp [toBeBytes, toLeBytes, ih]

theorem toBeBytes_length (k n : Nat) : (toBeBytes k n).length = k := by
  simp [toBeBytes_eq_reverse, toLeBytes_length]

theorem fromLeBytes_toLeBytes (k n : Nat) (h : n < 256 ^ k) :
    fromLeBytes (toLeBytes k n) = n := by
  induction k generalizing n with
  | zero =>
      have : n = 0 := by simpa using h
      simp [this, toLeBytes, fromLeBytes]
  | succ k ih =>
      have hdiv : n / 256 < 256 ^ k := by
        rw [Nat.div_lt_iff_lt_mul (by norm_num)]
        calc n < 256 ^ (k + 1) := h
        _ = 256 ^ k * 256 := by ring
      simp [toLeBytes, fromLeBytes, ih _ hdiv]
      omega

theorem fromLeBytes_append (l : List Nat) (b : Nat) :
    fromLeBytes (l ++ [b]) = fromLeBytes l + b * 256 ^ l.length := by
  induction l with
  | nil => simp [fromLeBytes]
  | cons x xs ih => simp [fromLeBytes, ih]; ring

theorem fromBeBytes_aux (bs : List Nat) :
    ∀ acc, List.foldl (fun acc b => 256 * acc + b) acc bs
      = fromLeBytes bs.reverse + acc * 256 ^ bs.length := by
  induction bs with
  | nil => intro acc; simp [fromLeBytes]
  | cons b bs ih =>
      intro acc
      simp only [List.foldl_cons, ih, List.reverse_cons, fromLeBytes_append,
        List.length_reverse, List.length_cons]
      ring

theorem fromBeBytes_eq_reverse (bs : List Nat) :
    fromBeBytes bs = fromLeBytes bs.reverse := by
  simpa using fromBeBytes_aux bs 0

theorem fromBeBytes_toBeBytes (k n : Nat) (h : n < 256 ^ k) :
    fromBeBytes (toBeBytes k n) = n := by
  rw [toBeBytes_eq_reverse, fromBeBytes_eq_reverse, List.reverse_reverse,
    fromLeBytes_toLeBytes k n h]

/-! Helper lemmas about the signed/unsigned reinterpretation casts. -/

theorem toUnsigned_lt (k : Nat) (i : Int) : toUnsigned k i < 256 ^ k := by
  unfold toUnsigned
  have hm : (0 : Int) < (256 : Int) ^ k := by positivity
  have h1 := Int.emod_nonneg i (ne_of_gt hm)
  have h2 := Int.emod_lt_of_pos i hm
  have hcast : ((256 ^ k : Nat) : Int) = (256 : Int) ^ k := by push_cast; ring
  omega

theorem toSigned_toUnsigned (k : Nat) (i : Int)
    (h1 : -(256 ^ k : Int) ≤ 2 * i) (h2 : 2 * i < (256 ^ k : Int)) :
    toSigned k (toUnsigned k i) = i := by
  unfold toSigned toUnsigned
  have hm : (0 : Int) < (256 : Int) ^ k := by positivity
  have hcast : ((256 ^ k : Nat) : Int) = (256 : Int) ^ k := by push_cast; ring
  rcases le_or_lt 0 i with hpos | hneg
  · have hlt : i < (256 : Int) ^ k := by omega
    rw [Int.emod_eq_of_lt hpos hlt]
    have htn : ((i.toNat : Int)) = i := Int.toNat_of_nonneg hpos
    have hcond : 2 * i.toNat < 256 ^ k := by omega
    simp only [if_pos hcond, htn]
  · have h0 : (0 : Int) ≤ i + 256 ^ k := by omega
    have hlt : i + 256 ^ k < 256 ^ k := by omega
    have hmod : i % (256 : Int) ^ k = i + 256 ^ k := by
      have := Int.add_mul_emod_self_left (a := i) (b := (256 : Int) ^ k) (c := 1)
      rw [mul_one] at this
      rw [← this, Int.emod_eq_of_lt h0 hlt]
    rw [hmod]
    have htn : (((i + 256 ^ k).toNat : Int)) = i + 256 ^ k := Int.toNat_of_nonneg h0
    have hcond : ¬ (2 * (i + 256 ^ k).toNat < 256 ^ k) := by omega
    simp only [if_neg hcond]
    omega

theorem toUnsigned_toSigned (k : Nat) (n : Nat) (h : n < 256 ^ k) :
    toUnsigned k (toSigned k n) = n := by
  unfold toSigned toUnsigned
  have hm : (0 : Int) < (256 : Int) ^ k := by positivity
  have hcast : ((256 ^ k : Nat) : Int) = (256 : Int) ^ k := by push_cast; ring
  by_cases hc : 2 * n < 256 ^ k
  · rw [if_pos hc]
    rw [Int.emod_eq_of_lt (by positivity) (by omega)]
    omega
  · rw [if_neg hc]
    have hmod : ((n : Int) - 256 ^ k) % (256 : Int) ^ k = (n : Int) := by
      have := Int.add_mul_emod_self_left (a := (n : Int) - 256 ^ k)
        (b := (256 : Int) ^ k) (c := 1)
      rw [mul_one] at this
      rw [← this]
      have harr : (n : Int) - 256 ^ k + 256 ^ k = (n : Int) := by ring
      rw [harr]
      exact Int.emod_eq_of_lt (by positivity) (by omega)
    rw [hmod]
    omega

/-! Helper lemmas about `readExact` on in-memory sources. -/

theorem readExact_exact (n : Nat) (bs : List Nat) (h : bs.length = n) :
    readExact n bs = Except.ok (bs, []) := by
  subst h
  simp [readExact]

theorem readExact_append (n : Nat) (bs rest : List Nat) (h : bs.length = n) :
    readExact n (bs ++ rest) = Except.ok (bs, rest) := by
  simp [readExact, h, List.take_append_of_le_length,
    List.drop_append_of_le_length, List.take_of_length_le]

theorem readExact_short (n : Nat) (bs : List Nat) (h : bs.length < n) :
    readExact n bs = Except.error IoError.unexpectedEof := by
  have h' : ¬ (n ≤ bs.length) := by omega
  simp [readExact, h']

/-! Per-width facts about the reader operations. -/

theorem read_u16_ok (o : ByteOrder) (bs rest : List Nat) (h : bs.length = 2) :
    NumberReader.read_u16 (NumberReader.with_order o (bs ++ rest)) =
      Except.ok
        ((if o = ByteOrder.LE then fromLeBytes bs else fromBeBytes bs),
          NumberReader.with_order o rest) := by
  have hre : readExact 2 (bs ++ rest) = Except.ok (bs, rest) :=
    readExact_append 2 bs rest h
  simp [NumberReader.read_u16, NumberReader.with_order, hre]

theorem read_u16_short (o : ByteOrder) (src : List Nat) (h : src.length < 2) :
    NumberReader.read_u16 (NumberReader.with_order o src) =
      Except.error IoError.unexpectedEof := by
  simp [NumberReader.read_u16, NumberReader.with_order, readExact_short 2 src h]

theorem read_u32_ok (o : ByteOrder) (bs rest : List Nat) (h : bs.length = 4) :
    NumberReader.read_u32 (NumberReader.with_order o (bs ++ rest)) =
      Except.ok
        ((if o = ByteOrder.LE then fromLeBytes bs else fromBeBytes bs),
          NumberReader.with_order o rest) := by
  have hre : readExact 4 (bs ++ rest) = Except.ok (bs, rest) :=
    readExact_append 4 bs rest h
  simp [NumberReader.read_u32, NumberReader.with_order, hre]

theorem read_u32_short (o : ByteOrder) (src : List Nat) (h : src.length < 4) :
    NumberReader.read_u32 (NumberReader.with_order o src) =
      Except.error IoError.unexpectedEof := by
  simp [NumberReader.read_u32, NumberReader.with_order, readExact_short 4 src h]

theorem read_u64_ok (o : ByteOrder) (bs rest : List Nat) (h : bs.length = 8) :
    NumberReader.read_u64 (NumberReader.with_order o (bs ++ rest)) =
      Except.ok
        ((if o = ByteOrder.LE then fromLeBytes bs else fromBeBytes bs),
          NumberReader.with_order o rest) := by
  have hre : readExact 8 (bs ++ rest) = Except.ok (bs, rest) :=
    readExact_append 8 bs rest h
  simp [NumberReader.read_u64, NumberReader.with_order, hre]

theorem read_u64_short (o : ByteOrder) (src : List Nat) (h : src.length < 8) :
    NumberReader.read_u64 (NumberReader.with_order o src) =
      Except.error IoError.unexpectedEof := by
  simp [NumberReader.read_u64, NumberReader.with_order, readExact_short 8 src h]

theorem read_u128_ok (o : ByteOrder) (bs rest : List Nat) (h : bs.length = 16) :
    NumberReader.read_u128 (NumberReader.with_order o (bs ++ rest)) =
      Except.ok
        ((if o = ByteOrder.LE then fromLeBytes bs else fromBeBytes bs),
          NumberReader.with_order o rest) := by
  have hre : readExact 16 (bs ++ rest) = Except.ok (bs, rest) :=
    readExact_append 16 bs rest h
  simp [NumberReader.read_u128, NumberReader.with_order, hre]

theorem read_u128_short (o : ByteOrder) (src : List Nat) (h : src.length < 16) :
    NumberReader.read_u128 (NumberReader.with_order o src) =
      Except.error IoError.unexpectedEof := by
  simp [NumberReader.read_u128, NumberReader.with_order, readExact_short 16 src h]

theorem read_f32_ok (o : ByteOrder) (bs rest : List Nat) (h : bs.length = 4) :
    NumberReader.read_f32 (NumberReader.with_order o (bs ++ rest)) =
      Except.ok
        ((if o = ByteOrder.LE then fromLeBytes bs else fromBeBytes bs),
          NumberReader.with_order o rest) := by
  have hre : readExact 4 (bs ++ rest) = Except.ok (bs, rest) :=
    readExact_append 4 bs rest h
  simp [NumberReader.read_f32, NumberReader.with_order, hre]

theorem read_f32_short (o : ByteOrder) (src : List Nat) (h : src.length < 4) :
    NumberReader.read_f32 (NumberReader.with_order o src) =
      Except.error IoError.unexpectedEof := by
  simp [NumberReader.read_f32, NumberReader.with_order, readExact_short 4 src h]

theorem read_f64_ok (o : ByteOrder) (bs rest : List Nat) (h : bs.length = 8) :
    NumberReader.read_f64 (NumberReader.with_order o (bs ++ rest)) =
      Except.ok
        ((if o = ByteOrder.LE then fromLeBytes bs else fromBeBytes bs),
          NumberReader.with_order o rest) := by
  have hre : readExact 8 (bs ++ rest) = Except.ok (bs, rest) :=
    readExact_append 8 bs rest h
  simp [NumberReader.read_f64, NumberReader.with_order, hre]

theorem read_f64_short (o : ByteOrder) (src : List Nat) (h : src.length < 8) :
    NumberReader.read_f64 (NumberReader.with_order o src) =
      Except.error IoError.unexpectedEof := by
  simp [NumberReader.read_f64, NumberReader.with_order, readExact_short 8 src h]

theorem read_i16_short (o : ByteOrder) (src : List Nat) (h : src.length < 2) :
    NumberReader.read_i16 (NumberReader.with_order o src) =
      Except.error IoError.unexpectedEof := by
  simp [NumberReader.read_i16, read_u16_short o src h]

theorem read_i32_short (o : ByteOrder) (src : List Nat) (h : src.length < 4) :
    NumberReader.read_i32 (NumberReader.with_order o src) =
      Except.error IoError.unexpectedEof := by
  simp [NumberReader.read_i32, read_u32_short o src h]

theorem read_i64_short (o : ByteOrder) (src : List Nat) (h : src.length < 8) :
    NumberReader.read_i64 (NumberReader.with_order o src) =
      Except.error IoError.unexpectedEof := by
  simp [NumberReader.read_i64, read_u64_short o src h]

theorem read_i128_short (o : ByteOrder) (src : List Nat) (h : src.length < 16) :
    NumberReader.read_i128 (NumberReader.with_order o src) =
      Except.error IoError.unexpectedEof := by
  simp [NumberReader.read_i128, read_u128_short o src h]

/-! Round-trip facts: write with one order, read back with the same order. -/

theorem roundtrip_u8 (o : ByteOrder) (n : Nat) (_h : n < 2 ^ 8) :
    NumberReader.read_u8
        (NumberReader.with_order o ((NumberWriter.with_order o []).write_u8 n).inner) =
      Except.ok (n, NumberReader.with_order o []) := by
  simp [NumberWriter.with_order, NumberWriter.write_u8, writeAll,
    NumberReader.read_u8, NumberReader.with_order, readExact]

theorem roundtrip_u16 (o : ByteOrder) (n : Nat) (h : n < 2 ^ 16) :
    NumberReader.read_u16
        (NumberReader.with_order o ((NumberWriter.with_order o []).write_u16 n).inner) =
      Except.ok (n, NumberReader.with_order o []) := by
  have h' : n < 256 ^ 2 := by have := h; norm_num at this ⊢; omega
  cases o with
  | BE =>
      have hw : ((NumberWriter.with_order ByteOrder.BE []).write_u16 n).inner
          = toBeBytes 2 n := by
        simp [NumberWriter.with_order, NumberWriter.write_u16, writeAll]
      have hre := readExact_exact 2 (toBeBytes 2 n) (toBeBytes_length 2 n)
      rw [hw]
      simp [NumberReader.read_u16, NumberReader.with_order, hre,
        fromBeBytes_toBeBytes 2 n h']
  | LE =>
      have hw : ((NumberWriter.with_order ByteOrder.LE []).write_u16 n).inner
          = toLeBytes 2 n := by
        simp [NumberWriter.with_order, NumberWriter.write_u16, writeAll]
      have hre := readExact_exact 2 (toLeBytes 2 n) (toLeBytes_length 2 n)
      rw [hw]
      simp [NumberReader.read_u16, NumberReader.with_order, hre,
        fromLeBytes_toLeBytes 2 n h']

theorem roundtrip_u32 (o : ByteOrder) (n : Nat) (h : n < 2 ^ 32) :
    NumberReader.read_u32
        (NumberReader.with_order o ((NumberWriter.with_order o []).write_u32 n).inner) =
      Except.ok (n, NumberReader.with_order o []) := by
  have h' : n < 256 ^ 4 := by have := h; norm_num at this ⊢; omega
  cases o with
  | BE =>
      have hw : ((NumberWriter.with_order ByteOrder.BE []).write_u32 n).inner
          = toBeBytes 4 n := by
        simp [NumberWriter.with_order, NumberWriter.write_u32, writeAll]
      have hre := readExact_exact 4 (toBeBytes 4 n) (toBeBytes_length 4 n)
      rw [hw]
      simp [NumberReader.read_u32, NumberReader.with_order, hre,
        fromBeBytes_toBeBytes 4 n h']
  | LE =>
      have hw : ((NumberWriter.with_order ByteOrder.LE []).write_u32 n).inner
          = toLeBytes 4 n := by
        simp [NumberWriter.with_order, NumberWriter.write_u32, writeAll]
      have hre := readExact_exact 4 (toLeBytes 4 n) (toLeBytes_length 4 n)
      rw [hw]
      simp [NumberReader.read_u32, NumberReader.with_order, hre,
        fromLeBytes_toLeBytes 4 n h']

theorem roundtrip_u64 (o : ByteOrder) (n : Nat) (h : n < 2 ^ 64) :
    NumberReader.read_u64
        (NumberReader.with_order o ((NumberWriter.with_order o []).write_u64 n).inner) =
      Except.ok (n, NumberReader.with_order o []) := by
  have h' : n < 256 ^ 8 := by have := h; norm_num at this ⊢; omega
  cases o with
  | BE =>
      have hw : ((NumberWriter.with_order ByteOrder.BE []).write_u64 n).inner
          = toBeBytes 8 n := by
        simp [NumberWriter.with_order, NumberWriter.write_u64, writeAll]
      have hre := readExact_exact 8 (toBeBytes 8 n) (toBeBytes_length 8 n)
      rw [hw]
      simp [NumberReader.read_u64, NumberReader.with_order, hre,
        fromBeBytes_toBeBytes 8 n h']
  | LE =>
      have hw : ((NumberWriter.with_order ByteOrder.LE []).write_u64 n).inner
          = toLeBytes 8 n := by
        simp [NumberWriter.with_order, NumberWriter.write_u64, writeAll]
      have hre := readExact_exact 8 (toLeBytes 8 n) (toLeBytes_length 8 n)
      rw [hw]
      simp [NumberReader.read_u64, NumberReader.with_order, hre,
        fromLeBytes_toLeBytes 8 n h']

theorem roundtrip_u128 (o : ByteOrder) (n : Nat) (h : n < 2 ^ 128) :
    NumberReader.read_u128
        (NumberReader.with_order o ((NumberWriter.with_order o []).write_u128 n).inner) =
      Except.ok (n, NumberReader.with_order o []) := by
  have h' : n < 256 ^ 16 := by have := h; norm_num at this ⊢; omega
  cases o with
  | BE =>
      have hw : ((NumberWriter.with_order ByteOrder.BE []).write_u128 n).inner
          = toBeBytes 16 n := by
        simp [NumberWriter.with_order, NumberWriter.write_u128, writeAll]
      have hre := readExact_exact 16 (toBeBytes 16 n) (toBeBytes_length 16 n)
      rw [hw]
      simp [NumberReader.read_u128, NumberReader.with_order, hre,
        fromBeBytes_toBeBytes 16 n h']
  | LE =>
      have hw : ((NumberWriter.with_order ByteOrder.LE []).write_u128 n).inner
          = toLeBytes 16 n := by
        simp [NumberWriter.with_order, NumberWriter.write_u128, writeAll]
      have hre := readExact_exact 16 (toLeBytes 16 n) (toLeBytes_length 16 n)
      rw [hw]
      simp [NumberReader.read_u128, NumberReader.with_order, hre,
        fromLeBytes_toLeBytes 16 n h']

theorem roundtrip_f32 (o : ByteOrder) (n : Nat) (h : n < 2 ^ 32) :
    NumberReader.read_f32
        (NumberReader.with_order o ((NumberWriter.with_order o []).write_f32 n).inner) =
      Except.ok (n, NumberReader.with_order o []) := by
  have h' : n < 256 ^ 4 := by have := h; norm_num at this ⊢; omega
  cases o with
  | BE =>
      have hw : ((NumberWriter.with_order ByteOrder.BE []).write_f32 n).inner
          = toBeBytes 4 n := by
        simp [NumberWriter.with_order, NumberWriter.write_f32, writeAll]
      have hre := readExact_exact 4 (toBeBytes 4 n) (toBeBytes_length 4 n)
      rw [hw]
      simp [NumberReader.read_f32, NumberReader.with_order, hre,
        fromBeBytes_toBeBytes 4 n h']
  | LE =>
      have hw : ((NumberWriter.with_order ByteOrder.LE []).write_f32 n).inner
          = toLeBytes 4 n := by
        simp [NumberWriter.with_order, NumberWriter.write_f32, writeAll]
      have hre := readExact_exact 4 (toLeBytes 4 n) (toLeBytes_length 4 n)
      rw [hw]
      simp [NumberReader.read_f32, NumberReader.with_order, hre,
        fromLeBytes_toLeBytes 4 n h']

theorem roundtrip_f64 (o : ByteOrder) (n : Nat) (h : n < 2 ^ 64) :
    NumberReader.read_f64
        (NumberReader.with_order o ((NumberWriter.with_order o []).write_f64 n).inner) =
      Except.ok (n, NumberReader.with_order o []) := by
  have h' : n < 256 ^ 8 := by have := h; norm_num at this ⊢; omega
  cases o with
  | BE =>
      have hw : ((NumberWriter.with_order ByteOrder.BE []).write_f64 n).inner
          = toBeBytes 8 n := by
        simp [NumberWriter.with_order, NumberWriter.write_f64, writeAll]
      have hre := readExact_exact 8 (toBeBytes 8 n) (toBeBytes_length 8 n)
      rw [hw]
      simp [NumberReader.read_f64, NumberReader.with_order, hre,
        fromBeBytes_toBeBytes 8 n h']
  | LE =>
      have hw : ((NumberWriter.with_order ByteOrder.LE []).write_f64 n).inner
          = toLeBytes 8 n := by
        simp [NumberWriter.with_order, NumberWriter.write_f64, writeAll]
      have hre := readExact_exact 8 (toLeBytes 8 n) (toLeBytes_length 8 n)
      rw [hw]
      simp [NumberReader.read_f64, NumberReader.with_order, hre,
        fromLeBytes_toLeBytes 8 n h']

theorem roundtrip_i8 (o : ByteOrder) (i : Int)
    (h1 : -(2 ^ 7) ≤ i) (h2 : i < 2 ^ 7) :
    NumberReader.read_i8
        (NumberReader.with_order o ((NumberWriter.with_order o []).write_i8 i).inner) =
      Except.ok (i, NumberReader.with_order o []) := by
  have hu : toUnsigned 1 i < 2 ^ 8 := by
    have := toUnsigned_lt 1 i; norm_num at this ⊢; omega
  have hr := roundtrip_u8 o (toUnsigned 1 i) hu
  have hs : toSigned 1 (toUnsigned 1 i) = i := by
    apply toSigned_toUnsigned <;> · norm_num at h1 h2 ⊢; omega
  simp only [NumberWriter.write_i8, NumberReader.read_i8, hr, hs]

theorem roundtrip_i16 (o : ByteOrder) (i : Int)
    (h1 : -(2 ^ 15) ≤ i) (h2 : i < 2 ^ 15) :
    NumberReader.read_i16
        (NumberReader.with_order o ((NumberWriter.with_order o []).write_i16 i).inner) =
      Except.ok (i, NumberReader.with_order o []) := by
  have hu : toUnsigned 2 i < 2 ^ 16 := by
    have := toUnsigned_lt 2 i; norm_num at this ⊢; omega
  have hr := roundtrip_u16 o (toUnsigned 2 i) hu
  have hs : toSigned 2 (toUnsigned 2 i) = i := by
    apply toSigned_toUnsigned <;> · norm_num at h1 h2 ⊢; omega
  simp only [NumberWriter.write_i16, NumberReader.read_i16, hr, hs]

theorem roundtrip_i32 (o : ByteOrder) (i : Int)
    (h1 : -(2 ^ 31) ≤ i) (h2 : i < 2 ^ 31) :
    NumberReader.read_i32
        (NumberReader.with_order o ((NumberWriter.with_order o []).write_i32 i).inner) =
      Except.ok (i, NumberReader.with_order o []) := by
  have hu : toUnsigned 4 i < 2 ^ 32 := by
    have := toUnsigned_lt 4 i; norm_num at this ⊢; omega
  have hr := roundtrip_u32 o (toUnsigned 4 i) hu
  have hs : toSigned 4 (toUnsigned 4 i) = i := by
    apply toSigned_toUnsigned <;> · norm_num at h1 h2 ⊢; omega
  simp only [NumberWriter.write_i32, NumberReader.read_i32, hr, hs]

theorem roundtrip_i64 (o : ByteOrder) (i : Int)
    (h1 : -(2 ^ 63) ≤ i) (h2 : i < 2 ^ 63) :
    NumberReader.read_i64
        (NumberReader.with_order o ((NumberWriter.with_order o []).write_i64 i).inner) =
      Except.ok (i, NumberReader.with_order o []) := by
  have hu : toUnsigned 8 i < 2 ^ 64 := by
    have := toUnsigned_lt 8 i; norm_num at this ⊢; omega
  have hr := roundtrip_u64 o (toUnsigned 8 i) hu
  have hs : toSigned 8 (toUnsigned 8 i) = i := by
    apply toSigned_toUnsigned <;> · norm_num at h1 h2 ⊢; omega
  simp only [NumberWriter.write_i64, NumberReader.read_i64, hr, hs]

theorem roundtrip_i128 (o : ByteOrder) (i : Int)
    (h1 : -(2 ^ 127) ≤ i) (h2 : i < 2 ^ 127) :
    NumberReader.read_i128
        (NumberReader.with_order o ((NumberWriter.with_order o []).write_i128 i).inner) =
      Except.ok (i, NumberReader.with_order o []) := by
  have hu : toUnsigned 16 i < 2 ^ 128 := by
    have := toUnsigned_lt 16 i; norm_num at this ⊢; omega
  have hr := roundtrip_u128 o (toUnsigned 16 i) hu
  have hs : toSigned 16 (toUnsigned 16 i) = i := by
    apply toSigned_toUnsigned <;> · norm_num at h1 h2 ⊢; omega
  simp only [NumberWriter.write_i128, NumberReader.read_i128, hr, hs]

/-- C1: for every supported width (8/16/32/64/128-bit unsigned and signed
integers, 32/64-bit floats), every byte order, and every representable value
`v` (floats by their exact bit pattern, so NaN patterns, infinities and
negative zero included), writing `v` with a `NumberWriter` of that order and
reading it back with a `NumberReader` of the same order over the produced
bytes returns exactly `v`, bit for bit. -/
theorem write_then_read_roundtrip (o : ByteOrder) :
    (∀ n : Nat, n < 2 ^ 8 →
      NumberReader.read_u8
          (NumberReader.with_order o ((NumberWriter.with_order o []).write_u8 n).inner) =
        Except.ok (n, NumberReader.with_order o [])) ∧
    (∀ n : Nat, n < 2 ^ 16 →
      NumberReader.read_u16
          (NumberReader.with_order o ((NumberWriter.with_order o []).write_u16 n).inner) =
        Except.ok (n, NumberReader.with_order o [])) ∧
    (∀ n : Nat, n < 2 ^ 32 →
      NumberReader.read_u32
          (NumberReader.with_order o ((NumberWriter.with_order o []).write_u32 n).inner) =
        Except.ok (n, NumberReader.with_order o [])) ∧
    (∀ n : Nat, n < 2 ^ 64 →
      NumberReader.read_u64
          (NumberReader.with_order o ((NumberWriter.with_order o []).write_u64 n).inner) =
        Except.ok (n, NumberReader.with_order o [])) ∧
    (∀ n : Nat, n < 2 ^ 128 →
      NumberReader.read_u128
          (NumberReader.with_order o ((NumberWriter.with_order o []).write_u128 n).inner) =
        Except.ok (n, NumberReader.with_order o [])) ∧
    (∀ i : Int, -(2 ^ 7) ≤ i → i < 2 ^ 7 →
      NumberReader.read_i8
          (NumberReader.with_order o ((NumberWriter.with_order o []).write_i8 i).inner) =
        Except.ok (i, NumberReader.with_order o [])) ∧
    (∀ i : Int, -(2 ^ 15) ≤ i → i < 2 ^ 15 →
      NumberReader.read_i16
          (NumberReader.with_order o ((NumberWriter.with_order o []).write_i16 i).inner) =
        Except.ok (i, NumberReader.with_order o [])) ∧
    (∀ i : Int, -(2 ^ 31) ≤ i → i < 2 ^ 31 →
      NumberReader.read_i32
          (NumberReader.with_order o ((NumberWriter.with_order o []).write_i32 i).inner) =
        Except.ok (i, NumberReader.with_order o [])) ∧
    (∀ i : Int, -(2 ^ 63) ≤ i → i < 2 ^ 63 →
      NumberReader.read_i64
          (NumberReader.with_order o ((NumberWriter.with_order o []).write_i64 i).inner) =
        Except.ok (i, NumberReader.with_order o [])) ∧
    (∀ i : Int, -(2 ^ 127) ≤ i → i < 2 ^ 127 →
      NumberReader.read_i128
          (NumberReader.with_order o ((NumberWriter.with_order o []).write_i128 i).inner) =
        Except.ok (i, NumberReader.with_order o [])) ∧
    (∀ bits : Nat, bits < 2 ^ 32 →
      NumberReader.read_f32
          (NumberReader.with_order o ((NumberWriter.with_order o []).write_f32 bits).inner) =
        Except.ok (bits, NumberReader.with_order o [])) ∧
    (∀ bits : Nat, bits < 2 ^ 64 →
      NumberReader.read_f64
          (NumberReader.with_order o ((NumberWriter.with_order o []).write_f64 bits).inner) =
        Except.ok (bits, NumberReader.with_order o [])) :=
  ⟨roundtrip_u8 o, roundtrip_u16 o, roundtrip_u32 o, roundtrip_u64 o,
    roundtrip_u128 o, roundtrip_i8 o, roundtrip_i16 o, roundtrip_i32 o,
    roundtrip_i64 o, roundtrip_i128 o, roundtrip_f32 o, roundtrip_f64 o⟩

/-- Witness for C1: the round-trip theorem instantiated at concrete values of
every width — among them the 128-bit extremes, the signed minimum, and the
quiet-NaN bit patterns `0x7FC00001` (binary32) and `0x7FF8000000000001`
(binary64), which round-trip bit for bit. -/
theorem write_then_read_roundtrip_witness :
    (NumberReader.read_u8
        (NumberReader.with_order ByteOrder.BE
          ((NumberWriter.with_order ByteOrder.BE []).write_u8 0x12).inner) =
      Except.ok (0x12, NumberReader.with_order ByteOrder.BE [])) ∧
    (NumberReader.read_u16
        (NumberReader.with_order ByteOrder.BE
          ((NumberWriter.with_order ByteOrder.BE []).write_u16 0x1234).inner) =
      Except.ok (0x1234, NumberReader.with_order ByteOrder.BE [])) ∧
    (NumberReader.read_u32
        (NumberReader.with_order ByteOrder.LE
          ((NumberWriter.with_order ByteOrder.LE []).write_u32 0x12345678).inner) =
      Except.ok (0x12345678, NumberReader.with_order ByteOrder.LE [])) ∧
    (NumberReader.read_u64
        (NumberReader.with_order ByteOrder.BE
          ((NumberWriter.with_order ByteOrder.BE []).write_u64 0x1234567890123456).inner) =
      Except.ok (0x1234567890123456, NumberReader.with_order ByteOrder.BE [])) ∧
    (NumberReader.read_u128
        (NumberReader.with_order ByteOrder.LE
          ((NumberWriter.with_order ByteOrder.LE []).write_u128
            0xFFFFFFFFFFFFFFFFFFFFFFFFFFFFFFFF).inner) =
      Except.ok (0xFFFFFFFFFFFFFFFFFFFFFFFFFFFFFFFF,
        NumberReader.with_order ByteOrder.LE [])) ∧
    (NumberReader.read_i8
        (NumberReader.with_order ByteOrder.BE
          ((NumberWriter.with_order ByteOrder.BE []).write_i8 (-128)).inner) =
      Except.ok (-128, NumberReader.with_order ByteOrder.BE [])) ∧
    (NumberReader.read_i16
        (NumberReader.with_order ByteOrder.LE
          ((NumberWriter.with_order ByteOrder.LE []).write_i16 32767).inner) =
      Except.ok (32767, NumberReader.with_order ByteOrder.LE [])) ∧
    (NumberReader.read_i32
        (NumberReader.with_order ByteOrder.BE
          ((NumberWriter.with_order ByteOrder.BE []).write_i32 (-1)).inner) =
      Except.ok (-1, NumberReader.with_order ByteOrder.BE [])) ∧
    (NumberReader.read_i64
        (NumberReader.with_order ByteOrder.LE
          ((NumberWriter.with_order ByteOrder.LE []).write_i64
            (-9223372036854775808)).inner) =
      Except.ok (-9223372036854775808, NumberReader.with_order ByteOrder.LE [])) ∧
    (NumberReader.read_i128
        (NumberReader.with_order ByteOrder.BE
          ((NumberWriter.with_order ByteOrder.BE []).write_i128 (-1)).inner) =
      Except.ok (-1, NumberReader.with_order ByteOrder.BE [])) ∧
    (NumberReader.read_f32
        (NumberReader.with_order ByteOrder.BE
          ((NumberWriter.with_order ByteOrder.BE []).write_f32 0x7FC00001).inner) =
      Except.ok (0x7FC00001, NumberReader.with_order ByteOrder.BE [])) ∧
    (NumberReader.read_f64
        (NumberReader.with_order ByteOrder.LE
          ((NumberWriter.with_order ByteOrder.LE []).write_f64
            0x7FF8000000000001).inner) =
      Except.ok (0x7FF8000000000001, NumberReader.with_order ByteOrder.LE [])) :=
  ⟨(write_then_read_roundtrip ByteOrder.BE).1 0x12 (by decide),
    (write_then_read_roundtrip ByteOrder.BE).2.1 0x1234 (by decide),
    (write_then_read_roundtrip ByteOrder.LE).2.2.1 0x12345678 (by decide),
    (write_then_read_roundtrip ByteOrder.BE).2.2.2.1 0x1234567890123456 (by decide),
    (write_then_read_roundtrip ByteOrder.LE).2.2.2.2.1
      0xFFFFFFFFFFFFFFFFFFFFFFFFFFFFFFFF (by decide),
    (write_then_read_roundtrip ByteOrder.BE).2.2.2.2.2.1 (-128) (by decide) (by decide),
    (write_then_read_roundtrip ByteOrder.LE).2.2.2.2.2.2.1 32767 (by decide) (by decide),
    (write_then_read_roundtrip ByteOrder.BE).2.2.2.2.2.2.2.1 (-1) (by decide) (by decide),
    (write_then_read_roundtrip ByteOrder.LE).2.2.2.2.2.2.2.2.1 (-9223372036854775808)
      (by decide) (by decide),
    (write_then_read_roundtrip ByteOrder.BE).2.2.2.2.2.2.2.2.2.1 (-1)
      (by decide) (by decide),
    (write_then_read_roundtrip ByteOrder.BE).2.2.2.2.2.2.2.2.2.2.1 0x7FC00001 (by decide),
    (write_then_read_roundtrip ByteOrder.LE).2.2.2.2.2.2.2.2.2.2.2 0x7FF8000000000001
      (by decide)⟩

/-- C2: for every value of every width of at least 16 bits (unsigned, signed
and float alike), the byte sequence a big-endian `NumberWriter` produces is
the exact byte reversal of the sequence the little-endian `NumberWriter`
produces for the same value; for the 8-bit operations both orders emit the
identical single byte. -/
theorem be_encoding_reverses_le_encoding :
    (∀ n : Nat,
      ((NumberWriter.with_order ByteOrder.BE []).write_u16 n).inner =
        (((NumberWriter.with_order ByteOrder.LE []).write_u16 n).inner).reverse) ∧
    (∀ n : Nat,
      ((NumberWriter.with_order ByteOrder.BE []).write_u32 n).inner =
        (((NumberWriter.with_order ByteOrder.LE []).write_u32 n).inner).reverse) ∧
    (∀ n : Nat,
      ((NumberWriter.with_order ByteOrder.BE []).write_u64 n).inner =
        (((NumberWriter.with_order ByteOrder.LE []).write_u64 n).inner).reverse) ∧
    (∀ n : Nat,
      ((NumberWriter.with_order ByteOrder.BE []).write_u128 n).inner =
        (((NumberWriter.with_order ByteOrder.LE []).write_u128 n).inner).reverse) ∧
    (∀ n : Nat,
      ((NumberWriter.with_order ByteOrder.BE []).write_f32 n).inner =
        (((NumberWriter.with_order ByteOrder.LE []).write_f32 n).inner).reverse) ∧
    (∀ n : Nat,
      ((NumberWriter.with_order ByteOrder.BE []).write_f64 n).inner =
        (((NumberWriter.with_order ByteOrder.LE []).write_f64 n).inner).reverse) ∧
    (∀ i : Int,
      ((NumberWriter.with_order ByteOrder.BE []).write_i16 i).inner =
        (((NumberWriter.with_order ByteOrder.LE []).write_i16 i).inner).reverse) ∧
    (∀ i : Int,
      ((NumberWriter.with_order ByteOrder.BE []).write_i32 i).inner =
        (((NumberWriter.with_order ByteOrder.LE []).write_i32 i).inner).reverse) ∧
    (∀ i : Int,
      ((NumberWriter.with_order ByteOrder.BE []).write_i64 i).inner =
        (((NumberWriter.with_order ByteOrder.LE []).write_i64 i).inner).reverse) ∧
    (∀ i : Int,
      ((NumberWriter.with_order ByteOrder.BE []).write_i128 i).inner =
        (((NumberWriter.with_order ByteOrder.LE []).write_i128 i).inner).reverse) ∧
    (∀ n : Nat,
      ((NumberWriter.with_order ByteOrder.BE []).write_u8 n).inner =
        ((NumberWriter.with_order ByteOrder.LE []).write_u8 n).inner) ∧
    (∀ i : Int,
      ((NumberWriter.with_order ByteOrder.BE []).write_i8 i).inner =
        ((NumberWriter.with_order ByteOrder.LE []).write_i8 i).inner) :=
  ⟨fun n => by
      simp [NumberWriter.with_order, NumberWriter.write_u16, writeAll,
        toBeBytes_eq_reverse],
    fun n => by
      simp [NumberWriter.with_order, NumberWriter.write_u32, writeAll,
        toBeBytes_eq_reverse],
    fun n => by
      simp [NumberWriter.with_order, NumberWriter.write_u64, writeAll,
        toBeBytes_eq_reverse],
    fun n => by
      simp [NumberWriter.with_order, NumberWriter.write_u128, writeAll,
        toBeBytes_eq_reverse],
    fun n => by
      simp [NumberWriter.with_order, NumberWriter.write_f32, writeAll,
        toBeBytes_eq_reverse],
    fun n => by
      simp [NumberWriter.with_order, NumberWriter.write_f64, writeAll,
        toBeBytes_eq_reverse],
    fun i => by
      simp [NumberWriter.with_order, NumberWriter.write_i16,
        NumberWriter.write_u16, writeAll, toBeBytes_eq_reverse],
    fun i => by
      simp [NumberWriter.with_order, NumberWriter.write_i32,
        NumberWriter.write_u32, writeAll, toBeBytes_eq_reverse],
    fun i => by
      simp [NumberWriter.with_order, NumberWriter.write_i64,
        NumberWriter.write_u64, writeAll, toBeBytes_eq_reverse],
    fun i => by
      simp [NumberWriter.with_order, NumberWriter.write_i128,
        NumberWriter.write_u128, writeAll, toBeBytes_eq_reverse],
    fun n => rfl,
    fun i => rfl⟩

/-- C3: for every multi-byte read operation (width at least 16 bits) and
every in-memory source holding fewer than `width/8` bytes, the operation
fails with the unexpected-end-of-input error and returns no partially
constructed value — a short read is never padded or truncated. -/
theorem short_read_errors (o : ByteOrder) (src : List Nat) :
    (src.length < 2 →
      NumberReader.read_u16 (NumberReader.with_order o src) =
        Except.error IoError.unexpectedEof) ∧
    (src.length < 2 →
      NumberReader.read_i16 (NumberReader.with_order o src) =
        Except.error IoError.unexpectedEof) ∧
    (src.length < 4 →
      NumberReader.read_u32 (NumberReader.with_order o src) =
        Except.error IoError.unexpectedEof) ∧
    (src.length < 4 →
      NumberReader.read_i32 (NumberReader.with_order o src) =
        Except.error IoError.unexpectedEof) ∧
    (src.length < 8 →
      NumberReader.read_u64 (NumberReader.with_order o src) =
        Except.error IoError.unexpectedEof) ∧
    (src.length < 8 →
      NumberReader.read_i64 (NumberReader.with_order o src) =
        Except.error IoError.unexpectedEof) ∧
    (src.length < 16 →
      NumberReader.read_u128 (NumberReader.with_order o src) =
        Except.error IoError.unexpectedEof) ∧
    (src.length < 16 →
      NumberReader.read_i128 (NumberReader.with_order o src) =
        Except.error IoError.unexpectedEof) ∧
    (src.length < 4 →
      NumberReader.read_f32 (NumberReader.with_order o src) =
        Except.error IoError.unexpectedEof) ∧
    (src.length < 8 →
      NumberReader.read_f64 (NumberReader.with_order o src) =
        Except.error IoError.unexpectedEof) :=
  ⟨read_u16_short o src,
    read_i16_short o src,
    read_u32_short o src,
    read_i32_short o src,
    read_u64_short o src,
    read_i64_short o src,
    read_u128_short o src,
    read_i128_short o src,
    read_f32_short o src,
    read_f64_short o src⟩

/-- Witness for C3: a one-byte source makes every multi-byte read of either
order fail with the incomplete-read error. -/
theorem short_read_errors_witness :
    (NumberReader.read_u16 (NumberReader.with_order ByteOrder.BE [0x12]) =
      Except.error IoError.unexpectedEof) ∧
    (NumberReader.read_i16 (NumberReader.with_order ByteOrder.BE [0x12]) =
      Except.error IoError.unexpectedEof) ∧
    (NumberReader.read_u32 (NumberReader.with_order ByteOrder.LE [0x12]) =
      Except.error IoError.unexpectedEof) ∧
    (NumberReader.read_i32 (NumberReader.with_order ByteOrder.LE [0x12]) =
      Except.error IoError.unexpectedEof) ∧
    (NumberReader.read_u64 (NumberReader.with_order ByteOrder.BE [0x12]) =
      Except.error IoError.unexpectedEof) ∧
    (NumberReader.read_i64 (NumberReader.with_order ByteOrder.BE [0x12]) =
      Except.error IoError.unexpectedEof) ∧
    (NumberReader.read_u128 (NumberReader.with_order ByteOrder.LE [0x12]) =
      Except.error IoError.unexpectedEof) ∧
    (NumberReader.read_i128 (NumberReader.with_order ByteOrder.LE [0x12]) =
      Except.error IoError.unexpectedEof) ∧
    (NumberReader.read_f32 (NumberReader.with_order ByteOrder.BE [0x12]) =
      Except.error IoError.unexpectedEof) ∧
    (NumberReader.read_f64 (NumberReader.with_order ByteOrder.LE [0x12]) =
      Except.error IoError.unexpectedEof) :=
  ⟨(short_read_errors ByteOrder.BE [0x12]).1 (by decide),
    (short_read_errors ByteOrder.BE [0x12]).2.1 (by decide),
    (short_read_errors ByteOrder.LE [0x12]).2.2.1 (by decide),
    (short_read_errors ByteOrder.LE [0x12]).2.2.2.1 (by decide),
    (short_read_errors ByteOrder.BE [0x12]).2.2.2.2.1 (by decide),
    (short_read_errors ByteOrder.BE [0x12]).2.2.2.2.2.1 (by decide),
    (short_read_errors ByteOrder.LE [0x12]).2.2.2.2.2.2.1 (by decide),
    (short_read_errors ByteOrder.LE [0x12]).2.2.2.2.2.2.2.1 (by decide),
    (short_read_errors ByteOrder.BE [0x12]).2.2.2.2.2.2.2.2.1 (by decide),
    (short_read_errors ByteOrder.LE [0x12]).2.2.2.2.2.2.2.2.2 (by decide)⟩

/-! The signed reader operations as reinterpretations of the unsigned ones. -/

theorem read_i8_eq (r : NumberReader) :
    r.read_i8 = Except.map (fun p => (toSigned 1 p.1, p.2)) r.read_u8 := by
  cases h : r.read_u8 with
  | error e => simp [NumberReader.read_i8, h, Except.map]
  | ok p =>
      obtain ⟨n, r'⟩ := p
      simp [NumberReader.read_i8, h, Except.map]

theorem read_i16_eq (r : NumberReader) :
    r.read_i16 = Except.map (fun p => (toSigned 2 p.1, p.2)) r.read_u16 := by
  cases h : r.read_u16 with
  | error e => simp [NumberReader.read_i16, h, Except.map]
  | ok p =>
      obtain ⟨n, r'⟩ := p
      simp [NumberReader.read_i16, h, Except.map]

theorem read_i32_eq (r : NumberReader) :
    r.read_i32 = Except.map (fun p => (toSigned 4 p.1, p.2)) r.read_u32 := by
  cases h : r.read_u32 with
  | error e => simp [NumberReader.read_i32, h, Except.map]
  | ok p =>
      obtain ⟨n, r'⟩ := p
      simp [NumberReader.read_i32, h, Except.map]

theorem read_i64_eq (r : NumberReader) :
    r.read_i64 = Except.map (fun p => (toSigned 8 p.1, p.2)) r.read_u64 := by
  cases h : r.read_u64 with
  | error e => simp [NumberReader.read_i64, h, Except.map]
  | ok p =>
      obtain ⟨n, r'⟩ := p
      simp [NumberReader.read_i64, h, Except.map]

theorem read_i128_eq (r : NumberReader) :
    r.read_i128 = Except.map (fun p => (toSigned 16 p.1, p.2)) r.read_u128 := by
  cases h : r.read_u128 with
  | error e => simp [NumberReader.read_i128, h, Except.map]
  | ok p =>
      obtain ⟨n, r'⟩ := p
      simp [NumberReader.read_i128, h, Except.map]

/-- C4: the signed operations are bit-exact reinterpretations of the unsigned
ones, with no sign-extension effects: each `read_iN` returns the
two's-complement reinterpretation of what `read_uN` returns over the same
bytes, each `write_iN v` emits exactly the bytes `write_uN` emits for the
unsigned reinterpretation of `v`'s bit pattern, the two reinterpretations
are mutually inverse on every width's bit patterns, and encoding the signed
32-bit value `-1` under either order yields `0xFF 0xFF 0xFF 0xFF`. -/
theorem signed_ops_bit_exact :
    (∀ r : NumberReader,
      r.read_i8 = Except.map (fun p => (toSigned 1 p.1, p.2)) r.read_u8) ∧
    (∀ r : NumberReader,
      r.read_i16 = Except.map (fun p => (toSigned 2 p.1, p.2)) r.read_u16) ∧
    (∀ r : NumberReader,
      r.read_i32 = Except.map (fun p => (toSigned 4 p.1, p.2)) r.read_u32) ∧
    (∀ r : NumberReader,
      r.read_i64 = Except.map (fun p => (toSigned 8 p.1, p.2)) r.read_u64) ∧
    (∀ r : NumberReader,
      r.read_i128 = Except.map (fun p => (toSigned 16 p.1, p.2)) r.read_u128) ∧
    (∀ (w : NumberWriter) (i : Int),
      w.write_i8 i = w.write_u8 (toUnsigned 1 i)) ∧
    (∀ (w : NumberWriter) (i : Int),
      w.write_i16 i = w.write_u16 (toUnsigned 2 i)) ∧
    (∀ (w : NumberWriter) (i : Int),
      w.write_i32 i = w.write_u32 (toUnsigned 4 i)) ∧
    (∀ (w : NumberWriter) (i : Int),
      w.write_i64 i = w.write_u64 (toUnsigned 8 i)) ∧
    (∀ (w : NumberWriter) (i : Int),
      w.write_i128 i = w.write_u128 (toUnsigned 16 i)) ∧
    (∀ (k : Nat) (n : Nat), n < 256 ^ k → toUnsigned k (toSigned k n) = n) ∧
    (∀ (k : Nat) (i : Int), -(256 ^ k : Int) ≤ 2 * i → 2 * i < (256 ^ k : Int) →
      toSigned k (toUnsigned k i) = i) ∧
    (((NumberWriter.with_order ByteOrder.BE []).write_i32 (-1)).inner =
      [0xFF, 0xFF, 0xFF, 0xFF]) ∧
    (((NumberWriter.with_order ByteOrder.LE []).write_i32 (-1)).inner =
      [0xFF, 0xFF, 0xFF, 0xFF]) :=
  ⟨read_i8_eq,
    read_i16_eq,
    read_i32_eq,
    read_i64_eq,
    read_i128_eq,
    fun w i => rfl,
    fun w i => rfl,
    fun w i => rfl,
    fun w i => rfl,
    fun w i => rfl,
    toUnsigned_toSigned,
    toSigned_toUnsigned,
    by decide,
    by decide⟩

/-- Witness for C4: the reinterpretation inverses instantiated on the 32-bit
patterns of `-1` (all ones) and back. -/
theorem signed_ops_bit_exact_witness :
    toUnsigned 4 (toSigned 4 0xFFFFFFFF) = 0xFFFFFFFF ∧
    toSigned 4 (toUnsigned 4 (-1)) = -1 :=
  ⟨signed_ops_bit_exact.2.2.2.2.2.2.2.2.2.2.1 4 0xFFFFFFFF (by decide),
    signed_ops_bit_exact.2.2.2.2.2.2.2.2.2.2.2.1 4 (-1) (by decide) (by decide)⟩

/-- C5: for every width of at least 16 bits, the reader recombines the
consumed byte run little-endian exactly when its fixed order is `LE` and
big-endian otherwise, consuming exactly `width/8` bytes; concretely, the
bytes `[0x12, 0x34]` decode to `0x1234` under big-endian order and to
`0x3412` under little-endian order. -/
theorem reader_order_dispatch :
    (∀ (o : ByteOrder) (bs rest : List Nat), bs.length = 2 →
      NumberReader.read_u16 (NumberReader.with_order o (bs ++ rest)) =
        Except.ok
          ((if o = ByteOrder.LE then fromLeBytes bs else fromBeBytes bs),
            NumberReader.with_order o rest)) ∧
    (∀ (o : ByteOrder) (bs rest : List Nat), bs.length = 4 →
      NumberReader.read_u32 (NumberReader.with_order o (bs ++ rest)) =
        Except.ok
          ((if o = ByteOrder.LE then fromLeBytes bs else fromBeBytes bs),
            NumberReader.with_order o rest)) ∧
    (∀ (o : ByteOrder) (bs rest : List Nat), bs.length = 8 →
      NumberReader.read_u64 (NumberReader.with_order o (bs ++ rest)) =
        Except.ok
          ((if o = ByteOrder.LE then fromLeBytes bs else fromBeBytes bs),
            NumberReader.with_order o rest)) ∧
    (∀ (o : ByteOrder) (bs rest : List Nat), bs.length = 16 →
      NumberReader.read_u128 (NumberReader.with_order o (bs ++ rest)) =
        Except.ok
          ((if o = ByteOrder.LE then fromLeBytes bs else fromBeBytes bs),
            NumberReader.with_order o rest)) ∧
    (∀ (o : ByteOrder) (bs rest : List Nat), bs.length = 4 →
      NumberReader.read_f32 (NumberReader.with_order o (bs ++ rest)) =
        Except.ok
          ((if o = ByteOrder.LE then fromLeBytes bs else fromBeBytes bs),
            NumberReader.with_order o rest)) ∧
    (∀ (o : ByteOrder) (bs rest : List Nat), bs.length = 8 →
      NumberReader.read_f64 (NumberReader.with_order o (bs ++ rest)) =
        Except.ok
          ((if o = ByteOrder.LE then fromLeBytes bs else fromBeBytes bs),
            NumberReader.with_order o rest)) ∧
    (NumberReader.read_u16 (NumberReader.with_order ByteOrder.BE [0x12, 0x34]) =
      Except.ok (0x1234, NumberReader.with_order ByteOrder.BE [])) ∧
    (NumberReader.read_u16 (NumberReader.with_order ByteOrder.LE [0x12, 0x34]) =
      Except.ok (0x3412, NumberReader.with_order ByteOrder.LE [])) :=
  ⟨read_u16_ok,
    read_u32_ok,
    read_u64_ok,
    read_u128_ok,
    read_f32_ok,
    read_f64_ok,
    rfl,
    rfl⟩

/-- Witness for C5: the dispatch rule instantiated on the concrete four-byte
run `[0x12, 0x34, 0x56, 0x78]` for the 32-bit read under both orders. -/
theorem reader_order_dispatch_witness :
    (NumberReader.read_u32
        (NumberReader.with_order ByteOrder.BE ([0x12, 0x34, 0x56, 0x78] ++ [])) =
      Except.ok
        ((if ByteOrder.BE = ByteOrder.LE then fromLeBytes [0x12, 0x34, 0x56, 0x78]
          else fromBeBytes [0x12, 0x34, 0x56, 0x78]),
          NumberReader.with_order ByteOrder.BE [])) ∧
    (NumberReader.read_u32
        (NumberReader.with_order ByteOrder.LE ([0x12, 0x34, 0x56, 0x78] ++ [])) =
      Except.ok
        ((if ByteOrder.LE = ByteOrder.LE then fromLeBytes [0x12, 0x34, 0x56, 0x78]
          else fromBeBytes [0x12, 0x34, 0x56, 0x78]),
          NumberReader.with_order ByteOrder.LE [])) :=
  ⟨reader_order_dispatch.2.1 ByteOrder.BE [0x12, 0x34, 0x56, 0x78] [] (by decide),
    reader_order_dispatch.2.1 ByteOrder.LE [0x12, 0x34, 0x56, 0x78] [] (by decide)⟩

/-- C6: the native-order constant resolves to big-endian exactly on
big-endian build targets and to little-endian otherwise, and `new` on both
wrappers is the same construction as `with_order` with the native order. -/
theorem native_order_resolution_and_new :
    (ByteOrder.NE true = ByteOrder.BE) ∧
    (ByteOrder.NE false = ByteOrder.LE) ∧
    (∀ (targetEndianBig : Bool) (src : List Nat),
      NumberReader.new targetEndianBig src =
        NumberReader.with_order (ByteOrder.NE targetEndianBig) src) ∧
    (∀ (targetEndianBig : Bool) (sink : List Nat),
      NumberWriter.new targetEndianBig sink =
        NumberWriter.with_order (ByteOrder.NE targetEndianBig) sink) :=
  ⟨rfl, rfl, fun _ _ => rfl, fun _ _ => rfl⟩


/-- Counterexample for C7: `NumberWriter` does not provide the claimed
pass-through — src/write.rs declares no trait impl for the type (so no
`impl Write`, which would supply the raw `write` and `flush`), and its
inherent method list has no raw `write` or `flush` either. -/
theorem numberWriter_passthrough_refuted :
    ¬ ("Write" ∈ numberWriterTraitImpls ∨
      ("write" ∈ numberWriterMethods ∧ "flush" ∈ numberWriterMethods)) := by
  decide


/-- C7 (amended): `NumberWriter` exposes only its constructors, accessors and
typed `write_*` operations — no pass-through raw byte writing and no flush
operation; the raw pass-through exists only on the reader side, where
`NumberReader` implements `Read`. -/
theorem numberWriter_api_surface :
    numberWriterTraitImpls = [] ∧
    "write" ∉ numberWriterMethods ∧
    "flush" ∉ numberWriterMethods ∧
    "Read" ∈ numberReaderTraitImpls := by
  refine ⟨rfl, ?_, ?_, ?_⟩ <;> decide


/-- C8: the wrapper's raw byte read delegates unmodified to the wrapped
source: for every source type, source state and buffer length, the wrapper
returns exactly the source's own result — the same filled bytes or the same
error — with no byte-order transformation, the source advanced exactly as
the source itself advances, and the wrapper's order untouched. -/
theorem raw_read_delegates {σ ε : Type}
    (readFn : σ → Nat → Except ε (List Nat × σ))
    (r : GenNumberReader σ) (bufLen : Nat) :
    GenNumberReader.read readFn r bufLen =
      Except.map (fun p => (p.1, { inner := p.2, order := r.order }))
        (readFn r.inner bufLen) := by
  cases h : readFn r.inner bufLen with
  | error e => simp [GenNumberReader.read, h, Except.map]
  | ok p =>
      obtain ⟨bs, s⟩ := p
      simp [GenNumberReader.read, h, Except.map]


/-- C9: floats are decoded by applying the reader's byte-order rule to the
raw bit pattern — any four (resp. eight) byte run is accepted unchanged,
with no NaN canonicalization or range validation — and the IEEE-754
binary32 reading of the pattern obtained from big-endian bytes
`[0x41, 0x48, 0x00, 0x00]` or little-endian bytes `[0x00, 0x00, 0x48, 0x41]`
is `12.5`. -/
theorem float_decode_bit_pattern :
    (∀ (o : ByteOrder) (bs rest : List Nat), bs.length = 4 →
      NumberReader.read_f32 (NumberReader.with_order o (bs ++ rest)) =
        Except.ok
          ((if o = ByteOrder.LE then fromLeBytes bs else fromBeBytes bs),
            NumberReader.with_order o rest)) ∧
    (∀ (o : ByteOrder) (bs rest : List Nat), bs.length = 8 →
      NumberReader.read_f64 (NumberReader.with_order o (bs ++ rest)) =
        Except.ok
          ((if o = ByteOrder.LE then fromLeBytes bs else fromBeBytes bs),
            NumberReader.with_order o rest)) ∧
    (NumberReader.read_f32
        (NumberReader.with_order ByteOrder.BE [0x41, 0x48, 0x00, 0x00]) =
      Except.ok (0x41480000, NumberReader.with_order ByteOrder.BE [])) ∧
    (NumberReader.read_f32
        (NumberReader.with_order ByteOrder.LE [0x00, 0x00, 0x48, 0x41]) =
      Except.ok (0x41480000, NumberReader.with_order ByteOrder.LE [])) ∧
    (f32ValOfBits 0x41480000 = some (25 / 2 : ℚ)) :=
  ⟨read_f32_ok, read_f64_ok, rfl, rfl, by norm_num [f32ValOfBits]⟩

/-- Witness for C9: the pass-through rule instantiated on the quiet-NaN
patterns — big-endian binary32 bytes `[0x7F, 0xC0, 0x00, 0x01]` and
little-endian binary64 bytes of `0x7FF8000000000001` — whose bit patterns
come back exactly. -/
theorem float_decode_bit_pattern_witness :
    (NumberReader.read_f32
        (NumberReader.with_order ByteOrder.BE ([0x7F, 0xC0, 0x00, 0x01] ++ [])) =
      Except.ok
        ((if ByteOrder.BE = ByteOrder.LE then fromLeBytes [0x7F, 0xC0, 0x00, 0x01]
          else fromBeBytes [0x7F, 0xC0, 0x00, 0x01]),
          NumberReader.with_order ByteOrder.BE [])) ∧
    (NumberReader.read_f64
        (NumberReader.with_order ByteOrder.LE
          ([0x01, 0x00, 0x00, 0x00, 0x00, 0x00, 0xF8, 0x7F] ++ [])) =
      Except.ok
        ((if ByteOrder.LE = ByteOrder.LE
          then fromLeBytes [0x01, 0x00, 0x00, 0x00, 0x00, 0x00, 0xF8, 0x7F]
          else fromBeBytes [0x01, 0x00, 0x00, 0x00, 0x00, 0x00, 0xF8, 0x7F]),
          NumberReader.with_order ByteOrder.LE [])) :=
  ⟨float_decode_bit_pattern.1 ByteOrder.BE [0x7F, 0xC0, 0x00, 0x01] [] (by decide),
    float_decode_bit_pattern.2.1 ByteOrder.LE
      [0x01, 0x00, 0x00, 0x00, 0x00, 0x00, 0xF8, 0x7F] [] (by decide)⟩


/-- C10: every write operation of width `w` on a `NumberWriter` over an
in-memory byte-vector sink appends exactly `w/8` bytes, leaves every
previously written byte unchanged, and leaves the writer's byte order
unchanged for subsequent writes. -/
theorem write_appends_exactly :
    (∀ (w : NumberWriter) (n : Nat), ∃ bs : List Nat, bs.length = 1 ∧
      (w.write_u8 n).inner = w.inner ++ bs ∧ (w.write_u8 n).order = w.order) ∧
    (∀ (w : NumberWriter) (n : Nat), ∃ bs : List Nat, bs.length = 2 ∧
      (w.write_u16 n).inner = w.inner ++ bs ∧ (w.write_u16 n).order = w.order) ∧
    (∀ (w : NumberWriter) (n : Nat), ∃ bs : List Nat, bs.length = 4 ∧
      (w.write_u32 n).inner = w.inner ++ bs ∧ (w.write_u32 n).order = w.order) ∧
    (∀ (w : NumberWriter) (n : Nat), ∃ bs : List Nat, bs.length = 8 ∧
      (w.write_u64 n).inner = w.inner ++ bs ∧ (w.write_u64 n).order = w.order) ∧
    (∀ (w : NumberWriter) (n : Nat), ∃ bs : List Nat, bs.length = 16 ∧
      (w.write_u128 n).inner = w.inner ++ bs ∧ (w.write_u128 n).order = w.order) ∧
    (∀ (w : NumberWriter) (i : Int), ∃ bs : List Nat, bs.length = 1 ∧
      (w.write_i8 i).inner = w.inner ++ bs ∧ (w.write_i8 i).order = w.order) ∧
    (∀ (w : NumberWriter) (i : Int), ∃ bs : List Nat, bs.length = 2 ∧
      (w.write_i16 i).inner = w.inner ++ bs ∧ (w.write_i16 i).order = w.order) ∧
    (∀ (w : NumberWriter) (i : Int), ∃ bs : List Nat, bs.length = 4 ∧
      (w.write_i32 i).inner = w.inner ++ bs ∧ (w.write_i32 i).order = w.order) ∧
    (∀ (w : NumberWriter) (i : Int), ∃ bs : List Nat, bs.length = 8 ∧
      (w.write_i64 i).inner = w.inner ++ bs ∧ (w.write_i64 i).order = w.order) ∧
    (∀ (w : NumberWriter) (i : Int), ∃ bs : List Nat, bs.length = 16 ∧
      (w.write_i128 i).inner = w.inner ++ bs ∧ (w.write_i128 i).order = w.order) ∧
    (∀ (w : NumberWriter) (n : Nat), ∃ bs : List Nat, bs.length = 4 ∧
      (w.write_f32 n).inner = w.inner ++ bs ∧ (w.write_f32 n).order = w.order) ∧
    (∀ (w : NumberWriter) (n : Nat), ∃ bs : List Nat, bs.length = 8 ∧
      (w.write_f64 n).inner = w.inner ++ bs ∧ (w.write_f64 n).order = w.order) :=
  ⟨fun w n => ⟨[n], rfl, rfl, rfl⟩,
    fun w n => by
      rcases w with ⟨l, o⟩
      cases o with
      | BE => exact ⟨toBeBytes 2 n, toBeBytes_length 2 n, rfl, rfl⟩
      | LE => exact ⟨toLeBytes 2 n, toLeBytes_length 2 n, rfl, rfl⟩,
    fun w n => by
      rcases w with ⟨l, o⟩
      cases o with
      | BE => exact ⟨toBeBytes 4 n, toBeBytes_length 4 n, rfl, rfl⟩
      | LE => exact ⟨toLeBytes 4 n, toLeBytes_length 4 n, rfl, rfl⟩,
    fun w n => by
      rcases w with ⟨l, o⟩
      cases o with
      | BE => exact ⟨toBeBytes 8 n, toBeBytes_length 8 n, rfl, rfl⟩
      | LE => exact ⟨toLeBytes 8 n, toLeBytes_length 8 n, rfl, rfl⟩,
    fun w n => by
      rcases w with ⟨l, o⟩
      cases o with
      | BE => exact ⟨toBeBytes 16 n, toBeBytes_length 16 n, rfl, rfl⟩
      | LE => exact ⟨toLeBytes 16 n, toLeBytes_length 16 n, rfl, rfl⟩,
    fun w i => ⟨[toUnsigned 1 i], rfl, rfl, rfl⟩,
    fun w i => by
      rcases w with ⟨l, o⟩
      cases o with
      | BE => exact ⟨toBeBytes 2 (toUnsigned 2 i), toBeBytes_length 2 _, rfl, rfl⟩
      | LE => exact ⟨toLeBytes 2 (toUnsigned 2 i), toLeBytes_length 2 _, rfl, rfl⟩,
    fun w i => by
      rcases w with ⟨l, o⟩
      cases o with
      | BE => exact ⟨toBeBytes 4 (toUnsigned 4 i), toBeBytes_length 4 _, rfl, rfl⟩
      | LE => exact ⟨toLeBytes 4 (toUnsigned 4 i), toLeBytes_length 4 _, rfl, rfl⟩,
    fun w i => by
      rcases w with ⟨l, o⟩
      cases o with
      | BE => exact ⟨toBeBytes 8 (toUnsigned 8 i), toBeBytes_length 8 _, rfl, rfl⟩
      | LE => exact ⟨toLeBytes 8 (toUnsigned 8 i), toLeBytes_length 8 _, rfl, rfl⟩,
    fun w i => by
      rcases w with ⟨l, o⟩
      cases o with
      | BE => exact ⟨toBeBytes 16 (toUnsigned 16 i), toBeBytes_length 16 _, rfl, rfl⟩
      | LE => exact ⟨toLeBytes 16 (toUnsigned 16 i), toLeBytes_length 16 _, rfl, rfl⟩,
    fun w n => by
      rcases w with ⟨l, o⟩
      cases o with
      | BE => exact ⟨toBeBytes 4 n, toBeBytes_length 4 n, rfl, rfl⟩
      | LE => exact ⟨toLeBytes 4 n, toLeBytes_length 4 n, rfl, rfl⟩,
    fun w n => by
      rcases w with ⟨l, o⟩
      cases o with
      | BE => exact ⟨toBeBytes 8 n, toBeBytes_length 8 n, rfl, rfl⟩
      | LE => exact ⟨toLeBytes 8 n, toLeBytes_length 8 n, rfl, rfl⟩⟩
